import Mathlib

/-!
Verification of a minimal container-bootstrap program (a small docker clone).

The program parses an image reference, obtains a registry token, fetches the
image manifest, downloads each layer blob to a local tar file, extracts the
layers in manifest order into a scratch directory, chroots into that
directory, unshares UTS/PID/mount namespaces, and finally runs the requested
command, propagating the child's exit code.

The embedding below mirrors `src/app/main.go`.  Strings are modelled as
`List Char`.  All external effects (HTTP responses, file-system call results,
the tar tool's exit status, the syscall results, the child process's fate)
are supplied by an `Env` oracle; each run produces the list of observable
events it performed, in order, together with the process's final outcome
(an exit code, or a Go runtime panic).  `os.Exit` terminates the run at
once and skips deferred calls, while a runtime panic unwinds the stack and
does run them, so the deferred `os.RemoveAll(tempDir)` is modelled as
running when `main` returns normally and when the run panics after the
scratch directory was created — exactly Go's semantics.
-/

namespace DockerGo

abbrev Str := List Char

def latestTag : Str := "latest".toList

def tarGzExt : Str := ".tar.gz".toList

/-- Go `strings.Split(s, sep)` for a one-character separator. -/
def splitOnChar (c : Char) : List Char → List (List Char)
  | [] => [[]]
  | x :: xs =>
    if x = c then
      [] :: splitOnChar c xs
    else
      match splitOnChar c xs with
      | [] => [[x]]
      | y :: ys => (x :: y) :: ys

/-- From `parseImage` in main.go: split on the colon; a single part means the
tag defaults to "latest", otherwise the first two parts are returned. -/
def parseImage (image : Str) : Str × Str :=
  match splitOnChar ':' image with
  | [part0] => (part0, latestTag)
  | part0 :: part1 :: _ => (part0, part1)
  | [] => ([], latestTag)

/-- Go string slicing `s[i:]`: defined when `i ≤ len(s)`, a runtime panic
(`none`) otherwise. -/
def goSliceFrom (s : Str) (i : Nat) : Option Str :=
  if i ≤ s.length then some (s.drop i) else none

/-- The local file name `pullLayer` uses: `fmt.Sprintf("%s.tar.gz", digest[7:])`.
`none` models the slice-out-of-range panic when the digest is shorter than 7. -/
def layerFileName (digest : Str) : Option Str :=
  (goSliceFrom digest 7).map (fun stem => stem ++ tarGzExt)

/-- Spec-modelled, for comparison with `layerFileName`: the spec says the file
is "named by the digest, stripped of its hash-algorithm prefix", for digests of
the form `algorithm:hexdigest`; this drops everything through the first colon. -/
def specStripAlg (digest : Str) : Str :=
  match digest.dropWhile (fun a => a ≠ ':') with
  | [] => digest
  | _ :: rest => rest

/-- Spec-modelled file name: the algorithm-stripped digest plus ".tar.gz". -/
def specLayerFileName (digest : Str) : Str :=
  specStripAlg digest ++ tarGzExt

structure TokenResponse where
  token : Str
  access_token : Str
deriving DecidableEq

structure LayerDesc where
  mediaType : Str
  size : Int
  digest : Str
deriving DecidableEq

structure ManifestResponse where
  schemaVersion : Int
  mediaType : Str
  configDigest : Str
  layers : List LayerDesc
deriving DecidableEq

/-- Result of `cmd.Run()` on the user command: either the child could not be
started at all, or it ran and exited with a code (0 means `Run` returned nil). -/
inductive ChildRun where
  | startErr (msg : Str) : ChildRun
  | exited (code : Nat) : ChildRun
deriving DecidableEq

/-- Oracle for all external effects of one run.  An HTTP interaction is either
a transport error or a status code together with the decoded body (`none`
models an undecodable body). -/
structure Env where
  mkdirTemp : Except Str Str
  tokenHTTP : Except Str (Nat × Option TokenResponse)
  manifestHTTP : Except Str (Nat × Option ManifestResponse)
  blobStatus : Str → Except Str Nat
  createOk : Str → Bool
  copyOk : Str → Bool
  tarOk : Str → Bool
  chrootErr : Option Str
  unshareErr : Bool
  child : ChildRun

/-- Observable events of a run, in program order. -/
inductive Event where
  | tokenReq : Event
  | manifestReq : Event
  | blobReq (digest : Str) : Event
  | createFile (path : Str) : Event
  | extractCall (src dest : Str) : Event
  | chrootCall (dir : Str) : Event
  | unshareCall : Event
  | runChild (cmd : Str) : Event
  | removeAllCall (dir : Str) : Event
  | printErr (msg : Str) : Event
deriving DecidableEq

/-- Final fate of the process. -/
inductive Outcome where
  | exited (code : Nat) : Outcome
  | panicked : Outcome
deriving DecidableEq

/-- Pure part of `getToken`: status is checked against 200 before the body is
decoded; the `token` field of the body is returned. -/
def getTokenResult (r : Except Str (Nat × Option TokenResponse)) : Except Str Str :=
  match r with
  | Except.error e => Except.error e
  | Except.ok (status, body) =>
    if status = 200 then
      match body with
      | none => Except.error "token decode error".toList
      | some t => Except.ok t.token
    else
      Except.error "Error getting token".toList

def getToken (env : Env) : List Event × Except Str Str :=
  ([Event.tokenReq], getTokenResult env.tokenHTTP)

/-- Pure part of `getManifest`: status checked against 200, then the buffered
body is decoded. -/
def getManifestResult (r : Except Str (Nat × Option ManifestResponse)) :
    Except Str ManifestResponse :=
  match r with
  | Except.error e => Except.error e
  | Except.ok (status, body) =>
    if status = 200 then
      match body with
      | none => Except.error "manifest decode error".toList
      | some m => Except.ok m
    else
      Except.error "Error getting manifest".toList

def getManifest (env : Env) : List Event × Except Str ManifestResponse :=
  ([Event.manifestReq], getManifestResult env.manifestHTTP)

inductive PullResult where
  | panicked : PullResult
  | failed (e : Str) : PullResult
  | pulled (name : Str) : PullResult
deriving DecidableEq

/-- `pullLayer`: request the blob; on a 200 response create the local file
named `digest[7:] + ".tar.gz"` (the `fmt.Sprintf` panics first when the digest
is shorter than 7 bytes) and copy the body into it. -/
def pullLayer (env : Env) (digest : Str) : List Event × PullResult :=
  match env.blobStatus digest with
  | Except.error e =>
    ([Event.blobReq digest, Event.printErr "Error sending request".toList],
     PullResult.failed e)
  | Except.ok status =>
    if status = 200 then
      match layerFileName digest with
      | none => ([Event.blobReq digest], PullResult.panicked)
      | some name =>
        if env.createOk name then
          if env.copyOk name then
            ([Event.blobReq digest, Event.createFile name], PullResult.pulled name)
          else
            ([Event.blobReq digest, Event.createFile name,
              Event.printErr "Error copying file".toList],
             PullResult.failed "copy".toList)
        else
          ([Event.blobReq digest, Event.createFile name,
            Event.printErr "Error creating file".toList],
           PullResult.failed "create".toList)
    else
      ([Event.blobReq digest, Event.printErr "Error getting layer".toList],
       PullResult.failed "status".toList)

/-- `extractTar`: run `tar -xzf src -C dest`; on failure it prints and calls
`os.Exit(1)` itself (so it never returns an error). -/
def extractTar (env : Env) (src dest : Str) : List Event × Option Nat :=
  if env.tarOk src then
    ([Event.extractCall src dest], none)
  else
    ([Event.extractCall src dest, Event.printErr "Error while applying layer".toList],
     some 1)

/-- The pull loop of `main`: pull each layer in manifest order, collecting the
local file names; any failure prints and exits 1, a short digest panics. -/
def pullLoop (env : Env) : List LayerDesc → List Event × (Outcome ⊕ List Str)
  | [] => ([], Sum.inr [])
  | d :: rest =>
    match pullLayer env d.digest with
    | (evs, PullResult.panicked) => (evs, Sum.inl Outcome.panicked)
    | (evs, PullResult.failed _) =>
      (evs ++ [Event.printErr "Error pulling layer".toList],
       Sum.inl (Outcome.exited 1))
    | (evs, PullResult.pulled name) =>
      match pullLoop env rest with
      | (evs2, Sum.inl o) => (evs ++ evs2, Sum.inl o)
      | (evs2, Sum.inr names) => (evs ++ evs2, Sum.inr (name :: names))

/-- The extract loop of `main`: extract each downloaded file into the scratch
directory, in order; `extractTar` exits the process on the first failure. -/
def extractLoop (env : Env) (dest : Str) : List Str → List Event × Option Nat
  | [] => ([], none)
  | n :: rest =>
    match extractTar env n dest with
    | (evs, some code) => (evs, some code)
    | (evs, none) =>
      match extractLoop env dest rest with
      | (evs2, r2) => (evs ++ evs2, r2)

/-- `isolateFileSystem`: chroot into the scratch directory; on failure it
prints the cause and returns the error. -/
def isolateFileSystem (env : Env) (tempDir : Str) : List Event × Option Str :=
  match env.chrootErr with
  | some e => ([Event.chrootCall tempDir, Event.printErr "Error chrooting".toList], some e)
  | none => ([Event.chrootCall tempDir], none)

/-- `isolateProcess`: unshare UTS, PID and mount namespaces; `true` means the
unshare syscall failed. -/
def isolateProcess (env : Env) : List Event × Bool :=
  ([Event.unshareCall], env.unshareErr)

/-- Tail of `main` after extraction: chroot, then unshare, then run the child
with stdio passthrough.  A normal return of `main` (child exited 0) runs the
deferred `os.RemoveAll(tempDir)`; every `os.Exit` path skips it. -/
def isolateAndRun (env : Env) (tempDir command : Str) : List Event × Outcome :=
  match isolateFileSystem env tempDir with
  | (fs, some _) =>
    (fs ++ [Event.printErr "Error isolating file system".toList], Outcome.exited 1)
  | (fs, none) =>
    match isolateProcess env with
    | (pr, true) =>
      (fs ++ pr ++ [Event.printErr "Error isolating process".toList],
       Outcome.exited 1)
    | (pr, false) =>
      match env.child with
      | ChildRun.startErr msg =>
        (fs ++ pr ++ [Event.runChild command,
           Event.printErr ("Err: ".toList ++ msg)],
         Outcome.exited 1)
      | ChildRun.exited code =>
        if code = 0 then
          (fs ++ pr ++ [Event.runChild command, Event.removeAllCall tempDir],
           Outcome.exited 0)
        else
          (fs ++ pr ++ [Event.runChild command], Outcome.exited code)

/-- `main` from main.go: make the scratch directory, parse the image, get the
token, get the manifest, pull all layers, extract them in order, isolate the
file system, isolate the process, and run the command.  A runtime panic in
the pull loop (short digest) unwinds through `main`, so the deferred
`os.RemoveAll(tempDir)` runs on that path; every `os.Exit` path skips it. -/
def main (env : Env) (imageName command : Str) : List Event × Outcome :=
  match env.mkdirTemp with
  | Except.error _ =>
    ([Event.printErr "Error creating temporary directory".toList], Outcome.exited 1)
  | Except.ok tempDir =>
    let _pi := parseImage imageName
    match getToken env with
    | (g, Except.error _) =>
      (g ++ [Event.printErr "Error getting token".toList], Outcome.exited 1)
    | (g, Except.ok _token) =>
      match getManifest env with
      | (m, Except.error _) =>
        (g ++ m ++ [Event.printErr "Error getting manifest".toList],
         Outcome.exited 1)
      | (m, Except.ok manifest) =>
        match pullLoop env manifest.layers with
        | (p, Sum.inl Outcome.panicked) =>
          (g ++ m ++ p ++ [Event.removeAllCall tempDir], Outcome.panicked)
        | (p, Sum.inl (Outcome.exited code)) => (g ++ m ++ p, Outcome.exited code)
        | (p, Sum.inr layerNames) =>
          match extractLoop env tempDir layerNames with
          | (x, some code) => (g ++ m ++ p ++ x, Outcome.exited code)
          | (x, none) =>
            match isolateAndRun env tempDir command with
            | (t, o) => (g ++ m ++ p ++ x ++ t, o)

/-! ## Basic lemmas about the string helpers -/

theorem splitOnChar_not_mem {c : Char} : ∀ {l : List Char}, c ∉ l → splitOnChar c l = [l]
  | [], _ => rfl
  | x :: xs, h => by
    have hx : ¬ x = c := fun he => h (he ▸ List.mem_cons_self x xs)
    have hxs : c ∉ xs := fun hm => h (List.mem_cons_of_mem x hm)
    simp [splitOnChar, hx, splitOnChar_not_mem hxs]

theorem splitOnChar_append {c : Char} : ∀ {n : List Char} (t : List Char), c ∉ n →
    splitOnChar c (n ++ c :: t) = n :: splitOnChar c t
  | [], t, _ => by simp [splitOnChar]
  | x :: xs, t, h => by
    have hx : ¬ x = c := fun he => h (he ▸ List.mem_cons_self x xs)
    have hxs : c ∉ xs := fun hm => h (List.mem_cons_of_mem x hm)
    simp [splitOnChar, hx, splitOnChar_append t hxs]

theorem layerFileName_eq_none {digest : Str} (h : digest.length < 7) :
    layerFileName digest = none := by
  have h7 : ¬ 7 ≤ digest.length := by omega
  simp [layerFileName, goSliceFrom, h7]

theorem layerFileName_eq_some {digest : Str} (h : 7 ≤ digest.length) :
    layerFileName digest = some (digest.drop 7 ++ tarGzExt) := by
  simp [layerFileName, goSliceFrom, h]

/-! ## Per-layer success conditions and loop computation lemmas -/

/-- The local file name the Go code gives layer `d`. -/
def goLayerName (d : LayerDesc) : Str := d.digest.drop 7 ++ tarGzExt

/-- All external effects involved in pulling layer `d` succeed, and the digest
is long enough not to panic the slice `digest[7:]`. -/
def layerPullOk (env : Env) (d : LayerDesc) : Prop :=
  env.blobStatus d.digest = Except.ok 200 ∧ 7 ≤ d.digest.length ∧
    env.createOk (goLayerName d) = true ∧ env.copyOk (goLayerName d) = true

theorem pullLayer_ok {env : Env} {d : LayerDesc} (h : layerPullOk env d) :
    pullLayer env d.digest =
      ([Event.blobReq d.digest, Event.createFile (goLayerName d)],
       PullResult.pulled (goLayerName d)) := by
  obtain ⟨h1, h2, h3, h4⟩ := h
  simp [pullLayer, h1, layerFileName_eq_some h2, goLayerName] at h3 h4 ⊢
  simp [h3, h4]

/-- The events a fully successful pull loop performs. -/
def pullEvents : List LayerDesc → List Event
  | [] => []
  | d :: rest =>
    Event.blobReq d.digest :: Event.createFile (goLayerName d) :: pullEvents rest

theorem pullLoop_ok {env : Env} : ∀ {layers : List LayerDesc},
    (∀ d ∈ layers, layerPullOk env d) →
    pullLoop env layers = (pullEvents layers, Sum.inr (layers.map goLayerName))
  | [], _ => rfl
  | d :: rest, h => by
    have hd := h d (List.mem_cons_self d rest)
    have hrest : ∀ e ∈ rest, layerPullOk env e :=
      fun e he => h e (List.mem_cons_of_mem d he)
    simp [pullLoop, pullLayer_ok hd, pullLoop_ok hrest, pullEvents]

theorem extractLoop_ok {env : Env} {dest : Str} : ∀ {names : List Str},
    (∀ n ∈ names, env.tarOk n = true) →
    extractLoop env dest names = (names.map (fun n => Event.extractCall n dest), none)
  | [], _ => rfl
  | n :: rest, h => by
    have hn := h n (List.mem_cons_self n rest)
    have hrest : ∀ m ∈ rest, env.tarOk m = true :=
      fun m hm => h m (List.mem_cons_of_mem n hm)
    simp [extractLoop, extractTar, hn, extractLoop_ok hrest]

theorem extractLoop_fail {env : Env} {dest nBad : Str} (ns2 : List Str)
    (hBad : env.tarOk nBad = false) :
    ∀ {ns1 : List Str}, (∀ n ∈ ns1, env.tarOk n = true) →
    extractLoop env dest (ns1 ++ nBad :: ns2) =
      ((ns1.map (fun n => Event.extractCall n dest)) ++
         [Event.extractCall nBad dest,
          Event.printErr "Error while applying layer".toList],
       some 1)
  | [], _ => by simp [extractLoop, extractTar, hBad]
  | n :: rest, h => by
    have hn := h n (List.mem_cons_self n rest)
    have hrest : ∀ m ∈ rest, env.tarOk m = true :=
      fun m hm => h m (List.mem_cons_of_mem n hm)
    simp [extractLoop, extractTar, hn, extractLoop_fail ns2 hBad hrest]

theorem pullLoop_panic {env : Env} {bad : LayerDesc} (l2 : List LayerDesc)
    (hst : env.blobStatus bad.digest = Except.ok 200)
    (hshort : bad.digest.length < 7) :
    ∀ {l1 : List LayerDesc}, (∀ d ∈ l1, layerPullOk env d) →
    pullLoop env (l1 ++ bad :: l2) =
      (pullEvents l1 ++ [Event.blobReq bad.digest], Sum.inl Outcome.panicked)
  | [], _ => by
    simp [pullLoop, pullLayer, hst, layerFileName_eq_none hshort, pullEvents]
  | d :: rest, h => by
    have hd := h d (List.mem_cons_self d rest)
    have hrest : ∀ e ∈ rest, layerPullOk env e :=
      fun e he => h e (List.mem_cons_of_mem d he)
    simp [pullLoop, pullLayer_ok hd, pullLoop_panic l2 hst hshort hrest, pullEvents]

/-! ## Event-shape lemmas: which kinds of events each stage can emit -/

/-- Events the pull loop can emit: blob requests, file creations, error prints. -/
def pullishEvent : Event → Bool
  | Event.blobReq _ => true
  | Event.createFile _ => true
  | Event.printErr _ => true
  | _ => false

/-- Events the extract loop can emit: extraction calls and error prints. -/
def extractishEvent : Event → Bool
  | Event.extractCall _ _ => true
  | Event.printErr _ => true
  | _ => false

theorem pullLayer_events_shape (env : Env) (digest : Str) :
    ∀ e ∈ (pullLayer env digest).1, pullishEvent e = true := by
  intro e he
  unfold pullLayer at he
  repeat' split at he
  all_goals simp at he
  all_goals rcases he with rfl | rfl | rfl <;> rfl

theorem pullLoop_events_shape (env : Env) : ∀ (ls : List LayerDesc) (e : Event),
    e ∈ (pullLoop env ls).1 → pullishEvent e = true
  | [], e, he => by simp [pullLoop] at he
  | d :: rest, e, he => by
    unfold pullLoop at he
    rcases hp : pullLayer env d.digest with ⟨evs, r⟩
    rw [hp] at he
    have hevs : ∀ x ∈ evs, pullishEvent x = true := by
      intro x hx
      exact pullLayer_events_shape env d.digest x (by rw [hp]; exact hx)
    cases r with
    | panicked =>
      simp at he
      exact hevs e he
    | failed msg =>
      simp at he
      rcases he with he | rfl
      · exact hevs e he
      · rfl
    | pulled name =>
      rcases hq : pullLoop env rest with ⟨evs2, r2⟩
      rw [hq] at he
      cases r2 with
      | inl o =>
        simp at he
        rcases he with he | he
        · exact hevs e he
        · exact pullLoop_events_shape env rest e (by rw [hq]; exact he)
      | inr names =>
        simp at he
        rcases he with he | he
        · exact hevs e he
        · exact pullLoop_events_shape env rest e (by rw [hq]; exact he)

theorem extractLoop_events_shape (env : Env) (dest : Str) :
    ∀ (ns : List Str) (e : Event),
      e ∈ (extractLoop env dest ns).1 → extractishEvent e = true
  | [], e, he => by simp [extractLoop] at he
  | n :: rest, e, he => by
    unfold extractLoop at he
    unfold extractTar at he
    by_cases ht : env.tarOk n = true
    · rw [if_pos ht] at he
      rcases hq : extractLoop env dest rest with ⟨evs2, r2⟩
      rw [hq] at he
      simp at he
      rcases he with rfl | he
      · rfl
      · exact extractLoop_events_shape env dest rest e (by rw [hq]; exact he)
    · rw [if_neg ht] at he
      simp at he
      rcases he with rfl | rfl <;> rfl

/-- If every event of `l` satisfies shape `p` and `e` does not, `e ∉ l`. -/
theorem not_mem_of_shape {p : Event → Bool} {l : List Event}
    (hl : ∀ e ∈ l, p e = true) {e : Event} (hp : p e = false) : e ∉ l :=
  fun hm => by simp [hl e hm] at hp

/-- If every event of `l` satisfies shape `p`, and `p` excludes `q`, then `l`
has no `q` events. -/
theorem countP_zero_of_shape {p q : Event → Bool} {l : List Event}
    (hl : ∀ e ∈ l, p e = true) (hpq : ∀ e, p e = true → q e = false) :
    l.countP q = 0 := by
  rw [List.countP_eq_zero]
  intro e he
  simp [hpq e (hl e he)]

/-- An `inl` result of the pull loop is a panic or exit 1. -/
theorem pullLoop_inl_outcome (env : Env) : ∀ (ls : List LayerDesc) (o : Outcome),
    (pullLoop env ls).2 = Sum.inl o → o = Outcome.panicked ∨ o = Outcome.exited 1
  | [], o, h => by simp [pullLoop] at h
  | d :: rest, o, h => by
    unfold pullLoop at h
    rcases hp : pullLayer env d.digest with ⟨evs, r⟩
    rw [hp] at h
    cases r with
    | panicked => simp at h; exact Or.inl h.symm
    | failed msg => simp at h; exact Or.inr h.symm
    | pulled name =>
      rcases hq : pullLoop env rest with ⟨evs2, r2⟩
      rw [hq] at h
      cases r2 with
      | inl o2 =>
        simp at h
        subst h
        exact pullLoop_inl_outcome env rest o2 (by rw [hq])
      | inr names => simp at h

/-- A `some` result of the extract loop carries exit code 1. -/
theorem extractLoop_some_code (env : Env) (dest : Str) :
    ∀ (ns : List Str) (code : Nat),
      (extractLoop env dest ns).2 = some code → code = 1
  | [], code, h => by simp [extractLoop] at h
  | n :: rest, code, h => by
    unfold extractLoop at h
    unfold extractTar at h
    by_cases ht : env.tarOk n = true
    · rw [if_pos ht] at h
      rcases hq : extractLoop env dest rest with ⟨evs2, r2⟩
      rw [hq] at h
      simp at h
      exact extractLoop_some_code env dest rest code (by rw [hq]; simpa using h)
    · rw [if_neg ht] at h
      simp at h
      exact h.symm

def isExtractEvent : Event → Bool
  | Event.extractCall _ _ => true
  | _ => false

def isChrootEvent : Event → Bool
  | Event.chrootCall _ => true
  | _ => false

def isUnshareEvent : Event → Bool
  | Event.unshareCall => true
  | _ => false

def isRunChildEvent : Event → Bool
  | Event.runChild _ => true
  | _ => false

/-- Events the isolation-and-run tail can emit. -/
def isolateishEvent : Event → Bool
  | Event.chrootCall _ => true
  | Event.unshareCall => true
  | Event.runChild _ => true
  | Event.removeAllCall _ => true
  | Event.printErr _ => true
  | _ => false

theorem isolateAndRun_events_shape (env : Env) (tempDir command : Str) :
    ∀ e ∈ (isolateAndRun env tempDir command).1, isolateishEvent e = true := by
  intro e he
  unfold isolateAndRun isolateFileSystem isolateProcess at he
  rcases hc : env.chrootErr with _ | er <;> rw [hc] at he <;>
    rcases hu : env.unshareErr <;> rw [hu] at he <;>
      rcases hch : env.child with msg | code <;> rw [hch] at he
  all_goals try (by_cases h0 : code = 0 <;> simp [h0] at he)
  all_goals try simp at he
  all_goals rcases he with rfl | rfl | rfl | rfl <;> rfl

/-- If every event of `l` satisfies shape `p`, and `p` excludes `q`, the
`q`-filter of `l` is empty. -/
theorem filter_eq_nil_of_shape {p q : Event → Bool} {l : List Event}
    (hl : ∀ e ∈ l, p e = true) (hpq : ∀ e, p e = true → q e = false) :
    l.filter q = [] := by
  rw [List.filter_eq_nil_iff]
  intro e he
  simp [hpq e (hl e he)]

/-- Computation of `main` when everything up to and including extraction
succeeds: the trace is the token request, the manifest request, the pull
events, the extraction calls in manifest order, then the isolation tail. -/
theorem main_ok_trace (env : Env) (imageName command tempDir : Str)
    (tok : TokenResponse) (man : ManifestResponse) (t : List Event) (o : Outcome)
    (hTmp : env.mkdirTemp = Except.ok tempDir)
    (hTok : env.tokenHTTP = Except.ok (200, some tok))
    (hMan : env.manifestHTTP = Except.ok (200, some man))
    (hPull : ∀ d ∈ man.layers, layerPullOk env d)
    (hTarNames : ∀ n ∈ man.layers.map goLayerName, env.tarOk n = true)
    (hIso : isolateAndRun env tempDir command = (t, o)) :
    main env imageName command =
      (Event.tokenReq :: Event.manifestReq :: (pullEvents man.layers ++
        ((man.layers.map goLayerName).map (fun n => Event.extractCall n tempDir) ++ t)),
       o) := by
  unfold main
  rw [hTmp]
  simp [getToken, getTokenResult, hTok, getManifest, getManifestResult, hMan,
        pullLoop_ok hPull, extractLoop_ok hTarNames, hIso]

/-- C1: for every manifest with N layer descriptors, in a run where pulling
and extraction succeed, the extraction events of the trace are exactly one
per layer, in the manifest's listed order (the trace is a sequential list of
completed calls, so extraction of a later layer cannot begin before an
earlier one has completed). -/
theorem claimC1_extraction_in_order (env : Env) (imageName command tempDir : Str)
    (tok : TokenResponse) (man : ManifestResponse)
    (hTmp : env.mkdirTemp = Except.ok tempDir)
    (hTok : env.tokenHTTP = Except.ok (200, some tok))
    (hMan : env.manifestHTTP = Except.ok (200, some man))
    (hPull : ∀ d ∈ man.layers, layerPullOk env d)
    (hTar : ∀ d ∈ man.layers, env.tarOk (goLayerName d) = true) :
    (main env imageName command).1.filter isExtractEvent
      = man.layers.map (fun d => Event.extractCall (goLayerName d) tempDir) := by
  have hTarNames : ∀ n ∈ man.layers.map goLayerName, env.tarOk n = true := by
    intro n hn
    rcases List.mem_map.mp hn with ⟨d, hd, rfl⟩
    exact hTar d hd
  rcases ht : isolateAndRun env tempDir command with ⟨t, o⟩
  rw [main_ok_trace env imageName command tempDir tok man t o
        hTmp hTok hMan hPull hTarNames ht]
  have hPullShape : ∀ e ∈ pullEvents man.layers, pullishEvent e = true := by
    have h := pullLoop_events_shape env man.layers
    rw [pullLoop_ok hPull] at h
    exact h
  have hTShape : ∀ e ∈ t, isolateishEvent e = true := by
    intro x hx
    exact isolateAndRun_events_shape env tempDir command x (by rw [ht]; exact hx)
  have h1 : (pullEvents man.layers).filter isExtractEvent = [] :=
    filter_eq_nil_of_shape hPullShape
      (by intro e he; cases e <;> simp_all [pullishEvent, isExtractEvent])
  have h3 : t.filter isExtractEvent = [] :=
    filter_eq_nil_of_shape hTShape
      (by intro e he; cases e <;> simp_all [isolateishEvent, isExtractEvent])
  have h2 : ((man.layers.map goLayerName).map
        (fun n => Event.extractCall n tempDir)).filter isExtractEvent
      = (man.layers.map goLayerName).map (fun n => Event.extractCall n tempDir) := by
    rw [List.filter_eq_self]
    intro e he
    rcases List.mem_map.mp he with ⟨n, _, rfl⟩
    rfl
  have hmm : (man.layers.map goLayerName).map (fun n => Event.extractCall n tempDir)
      = man.layers.map (fun d => Event.extractCall (goLayerName d) tempDir) := by
    rw [List.map_map]
    rfl
  rw [hmm] at h2
  simp [List.filter_append, h1, h3, isExtractEvent]
  exact h2

def tokExample : TokenResponse := ⟨"tok".toList, "tok".toList⟩

def layerA : LayerDesc := ⟨"mt".toList, 5, "sha256:aa".toList⟩

def manExample : ManifestResponse := ⟨2, "mt".toList, "sha256:cfg".toList, [layerA]⟩

def envHappy : Env :=
  { mkdirTemp := Except.ok "/tmp/dir".toList
    tokenHTTP := Except.ok (200, some tokExample)
    manifestHTTP := Except.ok (200, some manExample)
    blobStatus := fun _ => Except.ok 200
    createOk := fun _ => true
    copyOk := fun _ => true
    tarOk := fun _ => true
    chrootErr := none
    unshareErr := false
    child := ChildRun.exited 7 }

theorem claimC1_extraction_in_order_witness :
    (main envHappy "img".toList "cmd".toList).1.filter isExtractEvent
      = manExample.layers.map
          (fun d => Event.extractCall (goLayerName d) "/tmp/dir".toList) :=
  claimC1_extraction_in_order envHappy "img".toList "cmd".toList "/tmp/dir".toList
    tokExample manExample rfl rfl rfl
    (by
      intro d hd
      have hd' : d = layerA := by simpa [manExample] using hd
      subst hd'
      exact ⟨rfl, by decide, rfl, rfl⟩)
    (by intro d _; rfl)

theorem pullEvents_shape : ∀ (ls : List LayerDesc),
    ∀ e ∈ pullEvents ls, pullishEvent e = true
  | [], e, he => by simp [pullEvents] at he
  | d :: rest, e, he => by
    simp [pullEvents] at he
    rcases he with rfl | rfl | he
    · rfl
    · rfl
    · exact pullEvents_shape rest e he

/-- Computation of `main` when pulling succeeds but extracting layer `bad`
fails after the layers of `l1` extracted successfully: `extractTar` prints
and exits 1 on the spot. -/
theorem main_extract_fail_trace (env : Env) (imageName command tempDir : Str)
    (tok : TokenResponse) (man : ManifestResponse)
    (l1 : List LayerDesc) (bad : LayerDesc) (l2 : List LayerDesc)
    (hTmp : env.mkdirTemp = Except.ok tempDir)
    (hTok : env.tokenHTTP = Except.ok (200, some tok))
    (hMan : env.manifestHTTP = Except.ok (200, some man))
    (hLayers : man.layers = l1 ++ bad :: l2)
    (hPull : ∀ d ∈ man.layers, layerPullOk env d)
    (hTar1 : ∀ d ∈ l1, env.tarOk (goLayerName d) = true)
    (hTarBad : env.tarOk (goLayerName bad) = false) :
    main env imageName command =
      (Event.tokenReq :: Event.manifestReq :: (pullEvents man.layers ++
        ((l1.map (fun d => Event.extractCall (goLayerName d) tempDir)) ++
         [Event.extractCall (goLayerName bad) tempDir,
          Event.printErr "Error while applying layer".toList])),
       Outcome.exited 1) := by
  have hTar1' : ∀ n ∈ l1.map goLayerName, env.tarOk n = true := by
    intro n hn
    rcases List.mem_map.mp hn with ⟨d, hd, rfl⟩
    exact hTar1 d hd
  have hE : extractLoop env tempDir (man.layers.map goLayerName) =
      ((l1.map goLayerName).map (fun n => Event.extractCall n tempDir) ++
        [Event.extractCall (goLayerName bad) tempDir,
         Event.printErr "Error while applying layer".toList],
       some 1) := by
    rw [hLayers]
    simp only [List.map_append, List.map_cons]
    exact extractLoop_fail (l2.map goLayerName) hTarBad hTar1'
  have hmm : (l1.map goLayerName).map (fun n => Event.extractCall n tempDir)
      = l1.map (fun d => Event.extractCall (goLayerName d) tempDir) := by
    rw [List.map_map]
    rfl
  rw [hmm] at hE
  unfold main
  rw [hTmp]
  simp [getToken, getTokenResult, hTok, getManifest, getManifestResult, hMan,
        pullLoop_ok hPull, hE]

/-- C4: if extraction of layer `bad` fails (after the earlier layers `l1`
extracted fine), then the extraction events of the whole run are exactly
those of `l1` followed by the failing one — the layers of `l2` are never
attempted — and the process terminates with the non-zero exit status 1. -/
theorem claimC4_extract_fail_stops (env : Env) (imageName command tempDir : Str)
    (tok : TokenResponse) (man : ManifestResponse)
    (l1 : List LayerDesc) (bad : LayerDesc) (l2 : List LayerDesc)
    (hTmp : env.mkdirTemp = Except.ok tempDir)
    (hTok : env.tokenHTTP = Except.ok (200, some tok))
    (hMan : env.manifestHTTP = Except.ok (200, some man))
    (hLayers : man.layers = l1 ++ bad :: l2)
    (hPull : ∀ d ∈ man.layers, layerPullOk env d)
    (hTar1 : ∀ d ∈ l1, env.tarOk (goLayerName d) = true)
    (hTarBad : env.tarOk (goLayerName bad) = false) :
    (main env imageName command).1.filter isExtractEvent
      = (l1 ++ [bad]).map (fun d => Event.extractCall (goLayerName d) tempDir)
    ∧ (main env imageName command).2 = Outcome.exited 1 := by
  rw [main_extract_fail_trace env imageName command tempDir tok man l1 bad l2
        hTmp hTok hMan hLayers hPull hTar1 hTarBad]
  have h1 : (pullEvents man.layers).filter isExtractEvent = [] :=
    filter_eq_nil_of_shape (pullEvents_shape man.layers)
      (by intro e he; cases e <;> simp_all [pullishEvent, isExtractEvent])
  have h2 : (l1.map (fun d => Event.extractCall (goLayerName d) tempDir)).filter
        isExtractEvent
      = l1.map (fun d => Event.extractCall (goLayerName d) tempDir) := by
    rw [List.filter_eq_self]
    intro e he
    rcases List.mem_map.mp he with ⟨d, _, rfl⟩
    rfl
  refine ⟨?_, rfl⟩
  simp [List.filter_append, h1, h2, isExtractEvent]

def envExtractFail : Env :=
  { envHappy with tarOk := fun _ => false }

theorem claimC4_extract_fail_stops_witness :
    (main envExtractFail "img".toList "cmd".toList).1.filter isExtractEvent
      = ([] ++ [layerA]).map
          (fun d => Event.extractCall (goLayerName d) "/tmp/dir".toList)
    ∧ (main envExtractFail "img".toList "cmd".toList).2 = Outcome.exited 1 :=
  claimC4_extract_fail_stops envExtractFail "img".toList "cmd".toList
    "/tmp/dir".toList tokExample manExample [] layerA [] rfl rfl rfl rfl
    (by
      intro d hd
      have hd' : d = layerA := by simpa [manExample] using hd
      subst hd'
      exact ⟨rfl, by decide, rfl, rfl⟩)
    (by intro d hd; simp at hd)
    rfl

/-- C10: the slice `digest[7:]` in `pullLayer` is total only when the digest
has length at least 7: a successfully downloaded layer whose digest is
shorter than 7 characters makes the program panic (slice out of range)
rather than return an error, and the file-name computation is defined
exactly on digests of length at least 7. -/
theorem claimC10_short_digest_panics (env : Env) (imageName command tempDir : Str)
    (tok : TokenResponse) (man : ManifestResponse)
    (l1 : List LayerDesc) (bad : LayerDesc) (l2 : List LayerDesc)
    (hTmp : env.mkdirTemp = Except.ok tempDir)
    (hTok : env.tokenHTTP = Except.ok (200, some tok))
    (hMan : env.manifestHTTP = Except.ok (200, some man))
    (hLayers : man.layers = l1 ++ bad :: l2)
    (hPull1 : ∀ d ∈ l1, layerPullOk env d)
    (hStatus : env.blobStatus bad.digest = Except.ok 200)
    (hShort : bad.digest.length < 7) :
    (main env imageName command).2 = Outcome.panicked
    ∧ ∀ dg : Str, (layerFileName dg).isNone = decide (dg.length < 7) := by
  constructor
  · unfold main
    rw [hTmp]
    have hP : pullLoop env man.layers =
        (pullEvents l1 ++ [Event.blobReq bad.digest], Sum.inl Outcome.panicked) := by
      rw [hLayers]
      exact pullLoop_panic l2 hStatus hShort hPull1
    simp [getToken, getTokenResult, hTok, getManifest, getManifestResult, hMan, hP]
  · intro dg
    by_cases h : dg.length < 7
    · simp [layerFileName_eq_none h, h]
    · have h7 : 7 ≤ dg.length := by omega
      simp [layerFileName_eq_some h7, h]

def layerShort : LayerDesc := ⟨"mt".toList, 5, "md5:a".toList⟩

def manShort : ManifestResponse := ⟨2, "mt".toList, "sha256:cfg".toList, [layerShort]⟩

def envPanic : Env :=
  { envHappy with manifestHTTP := Except.ok (200, some manShort) }

theorem claimC10_short_digest_panics_witness :
    (main envPanic "img".toList "cmd".toList).2 = Outcome.panicked
    ∧ (layerFileName "md5:a".toList).isNone
        = decide ("md5:a".toList.length < 7) :=
  ⟨(claimC10_short_digest_panics envPanic "img".toList "cmd".toList
      "/tmp/dir".toList tokExample manShort [] layerShort [] rfl rfl rfl rfl
      (by intro d hd; simp at hd) rfl (by decide)).1,
   (claimC10_short_digest_panics envPanic "img".toList "cmd".toList
      "/tmp/dir".toList tokExample manShort [] layerShort [] rfl rfl rfl rfl
      (by intro d hd; simp at hd) rfl (by decide)).2 "md5:a".toList⟩

/-- C2: when the run reaches the user command, a child that terminates
normally with exit code `code` makes the program itself exit with exactly
`code` (including `code = 0`, where `main` returns normally), while a child
that cannot even be started makes the program print the cause and exit with
the fixed fallback code 1. -/
theorem claimC2_exit_code_passthrough (env : Env) (imageName command tempDir : Str)
    (tok : TokenResponse) (man : ManifestResponse)
    (hTmp : env.mkdirTemp = Except.ok tempDir)
    (hTok : env.tokenHTTP = Except.ok (200, some tok))
    (hMan : env.manifestHTTP = Except.ok (200, some man))
    (hPull : ∀ d ∈ man.layers, layerPullOk env d)
    (hTar : ∀ d ∈ man.layers, env.tarOk (goLayerName d) = true)
    (hChroot : env.chrootErr = none)
    (hUnshare : env.unshareErr = false) :
    (∀ code : Nat, env.child = ChildRun.exited code →
       (main env imageName command).2 = Outcome.exited code)
    ∧ (∀ msg : Str, env.child = ChildRun.startErr msg →
       (main env imageName command).2 = Outcome.exited 1
       ∧ Event.printErr ("Err: ".toList ++ msg) ∈ (main env imageName command).1) := by
  have hTarNames : ∀ n ∈ man.layers.map goLayerName, env.tarOk n = true := by
    intro n hn
    rcases List.mem_map.mp hn with ⟨d, hd, rfl⟩
    exact hTar d hd
  constructor
  · intro code hc
    by_cases h0 : code = 0
    · subst h0
      have hIso : isolateAndRun env tempDir command =
          ([Event.chrootCall tempDir, Event.unshareCall, Event.runChild command,
            Event.removeAllCall tempDir], Outcome.exited 0) := by
        simp [isolateAndRun, isolateFileSystem, isolateProcess, hChroot, hUnshare, hc]
      rw [main_ok_trace env imageName command tempDir tok man _ _
            hTmp hTok hMan hPull hTarNames hIso]
    · have hIso : isolateAndRun env tempDir command =
          ([Event.chrootCall tempDir, Event.unshareCall, Event.runChild command],
           Outcome.exited code) := by
        simp [isolateAndRun, isolateFileSystem, isolateProcess, hChroot, hUnshare,
              hc, h0]
      rw [main_ok_trace env imageName command tempDir tok man _ _
            hTmp hTok hMan hPull hTarNames hIso]
  · intro msg hm
    have hIso : isolateAndRun env tempDir command =
        ([Event.chrootCall tempDir, Event.unshareCall, Event.runChild command,
          Event.printErr ("Err: ".toList ++ msg)], Outcome.exited 1) := by
      simp [isolateAndRun, isolateFileSystem, isolateProcess, hChroot, hUnshare, hm]
    rw [main_ok_trace env imageName command tempDir tok man _ _
          hTmp hTok hMan hPull hTarNames hIso]
    exact ⟨rfl, by simp⟩

def envStartFail : Env :=
  { envHappy with child := ChildRun.startErr "enoent".toList }

theorem claimC2_exit_code_passthrough_witness :
    (main envHappy "img".toList "cmd".toList).2 = Outcome.exited 7
    ∧ (main envStartFail "img".toList "cmd".toList).2 = Outcome.exited 1
    ∧ Event.printErr ("Err: ".toList ++ "enoent".toList)
        ∈ (main envStartFail "img".toList "cmd".toList).1 := by
  have hP1 : ∀ d ∈ manExample.layers, layerPullOk envHappy d := by
    intro d hd
    have hd' : d = layerA := by simpa [manExample] using hd
    subst hd'
    exact ⟨rfl, by decide, rfl, rfl⟩
  have hP2 : ∀ d ∈ manExample.layers, layerPullOk envStartFail d := by
    intro d hd
    have hd' : d = layerA := by simpa [manExample] using hd
    subst hd'
    exact ⟨rfl, by decide, rfl, rfl⟩
  refine ⟨?_, ?_, ?_⟩
  · exact (claimC2_exit_code_passthrough envHappy "img".toList "cmd".toList
      "/tmp/dir".toList tokExample manExample rfl rfl rfl hP1
      (by intro d _; rfl) rfl rfl).1 7 rfl
  · exact ((claimC2_exit_code_passthrough envStartFail "img".toList "cmd".toList
      "/tmp/dir".toList tokExample manExample rfl rfl rfl hP2
      (by intro d _; rfl) rfl rfl).2 "enoent".toList rfl).1
  · exact ((claimC2_exit_code_passthrough envStartFail "img".toList "cmd".toList
      "/tmp/dir".toList tokExample manExample rfl rfl rfl hP2
      (by intro d _; rfl) rfl rfl).2 "enoent".toList rfl).2

/-- Computation of `main` when the token endpoint interaction fails. -/
theorem main_token_err_trace (env : Env) (imageName command tempDir : Str)
    (hTmp : env.mkdirTemp = Except.ok tempDir) (e : Str)
    (hTok : getTokenResult env.tokenHTTP = Except.error e) :
    main env imageName command =
      ([Event.tokenReq, Event.printErr "Error getting token".toList],
       Outcome.exited 1) := by
  unfold main
  rw [hTmp]
  simp [getToken, hTok]

/-- C6: a non-2xx response from the token endpoint aborts the run before any
manifest request or blob request is issued. -/
theorem claimC6_token_non2xx_aborts (env : Env) (imageName command : Str)
    (s : Nat) (b : Option TokenResponse)
    (hTok : env.tokenHTTP = Except.ok (s, b))
    (hs : s < 200 ∨ 300 ≤ s) :
    Event.manifestReq ∉ (main env imageName command).1
    ∧ ∀ dg : Str, Event.blobReq dg ∉ (main env imageName command).1 := by
  have hne : ¬ s = 200 := by omega
  rcases hm : env.mkdirTemp with e | tempDir
  · have hMain : main env imageName command =
        ([Event.printErr "Error creating temporary directory".toList],
         Outcome.exited 1) := by
      unfold main
      rw [hm]
    rw [hMain]
    exact ⟨by simp, fun dg => by simp⟩
  · have hErr : getTokenResult env.tokenHTTP
        = Except.error "Error getting token".toList := by
      simp [getTokenResult, hTok, hne]
    rw [main_token_err_trace env imageName command tempDir hm _ hErr]
    exact ⟨by simp, fun dg => by simp⟩

def env404 : Env :=
  { envHappy with tokenHTTP := Except.ok (404, none) }

theorem claimC6_token_non2xx_aborts_witness :
    Event.manifestReq ∉ (main env404 "img".toList "cmd".toList).1
    ∧ Event.blobReq "sha256:aa".toList ∉ (main env404 "img".toList "cmd".toList).1 :=
  ⟨(claimC6_token_non2xx_aborts env404 "img".toList "cmd".toList 404 none rfl
      (Or.inr (by omega))).1,
   (claimC6_token_non2xx_aborts env404 "img".toList "cmd".toList 404 none rfl
      (Or.inr (by omega))).2 "sha256:aa".toList⟩

/-! ## Stage-by-stage computation lemmas for `main` -/

theorem main_mkdir_err_trace (env : Env) (imageName command e : Str)
    (hTmp : env.mkdirTemp = Except.error e) :
    main env imageName command =
      ([Event.printErr "Error creating temporary directory".toList],
       Outcome.exited 1) := by
  unfold main
  rw [hTmp]

theorem main_manifest_err_trace (env : Env) (imageName command tempDir : Str)
    (hTmp : env.mkdirTemp = Except.ok tempDir) (tokv : Str)
    (hTok : getTokenResult env.tokenHTTP = Except.ok tokv) (e : Str)
    (hMan : getManifestResult env.manifestHTTP = Except.error e) :
    main env imageName command =
      ([Event.tokenReq, Event.manifestReq,
        Event.printErr "Error getting manifest".toList], Outcome.exited 1) := by
  unfold main
  rw [hTmp]
  simp [getToken, hTok, getManifest, hMan]

theorem main_pull_exit_trace (env : Env) (imageName command tempDir : Str)
    (hTmp : env.mkdirTemp = Except.ok tempDir) (tokv : Str)
    (hTok : getTokenResult env.tokenHTTP = Except.ok tokv)
    (man : ManifestResponse)
    (hMan : getManifestResult env.manifestHTTP = Except.ok man)
    (pEvs : List Event) (code : Nat)
    (hP : pullLoop env man.layers = (pEvs, Sum.inl (Outcome.exited code))) :
    main env imageName command =
      (Event.tokenReq :: Event.manifestReq :: pEvs, Outcome.exited code) := by
  unfold main
  rw [hTmp]
  simp [getToken, hTok, getManifest, hMan, hP]

/-- When the pull loop panics, the panic unwinds through `main`, so the
deferred removal of the scratch directory does run before the crash. -/
theorem main_pull_panic_trace (env : Env) (imageName command tempDir : Str)
    (hTmp : env.mkdirTemp = Except.ok tempDir) (tokv : Str)
    (hTok : getTokenResult env.tokenHTTP = Except.ok tokv)
    (man : ManifestResponse)
    (hMan : getManifestResult env.manifestHTTP = Except.ok man)
    (pEvs : List Event)
    (hP : pullLoop env man.layers = (pEvs, Sum.inl Outcome.panicked)) :
    main env imageName command =
      (Event.tokenReq :: Event.manifestReq ::
        (pEvs ++ [Event.removeAllCall tempDir]), Outcome.panicked) := by
  unfold main
  rw [hTmp]
  simp [getToken, hTok, getManifest, hMan, hP]

theorem main_extract_stop_trace (env : Env) (imageName command tempDir : Str)
    (hTmp : env.mkdirTemp = Except.ok tempDir) (tokv : Str)
    (hTok : getTokenResult env.tokenHTTP = Except.ok tokv)
    (man : ManifestResponse)
    (hMan : getManifestResult env.manifestHTTP = Except.ok man)
    (pEvs : List Event) (names : List Str)
    (hP : pullLoop env man.layers = (pEvs, Sum.inr names))
    (xEvs : List Event) (code : Nat)
    (hX : extractLoop env tempDir names = (xEvs, some code)) :
    main env imageName command =
      (Event.tokenReq :: Event.manifestReq :: (pEvs ++ xEvs),
       Outcome.exited code) := by
  unfold main
  rw [hTmp]
  simp [getToken, hTok, getManifest, hMan, hP, hX]

theorem main_stages_trace (env : Env) (imageName command tempDir : Str)
    (hTmp : env.mkdirTemp = Except.ok tempDir) (tokv : Str)
    (hTok : getTokenResult env.tokenHTTP = Except.ok tokv)
    (man : ManifestResponse)
    (hMan : getManifestResult env.manifestHTTP = Except.ok man)
    (pEvs : List Event) (names : List Str)
    (hP : pullLoop env man.layers = (pEvs, Sum.inr names))
    (xEvs : List Event)
    (hX : extractLoop env tempDir names = (xEvs, none))
    (t : List Event) (o : Outcome)
    (hIso : isolateAndRun env tempDir command = (t, o)) :
    main env imageName command =
      (Event.tokenReq :: Event.manifestReq :: (pEvs ++ (xEvs ++ t)), o) := by
  unfold main
  rw [hTmp]
  simp [getToken, hTok, getManifest, hMan, hP, hX, hIso]

/-! ## Computation lemmas for the isolation tail -/

theorem isolateAndRun_chroot_err (env : Env) (tempDir command er : Str)
    (hc : env.chrootErr = some er) :
    isolateAndRun env tempDir command =
      ([Event.chrootCall tempDir, Event.printErr "Error chrooting".toList,
        Event.printErr "Error isolating file system".toList],
       Outcome.exited 1) := by
  simp [isolateAndRun, isolateFileSystem, hc]

theorem isolateAndRun_unshare_err (env : Env) (tempDir command : Str)
    (hc : env.chrootErr = none) (hu : env.unshareErr = true) :
    isolateAndRun env tempDir command =
      ([Event.chrootCall tempDir, Event.unshareCall,
        Event.printErr "Error isolating process".toList],
       Outcome.exited 1) := by
  simp [isolateAndRun, isolateFileSystem, isolateProcess, hc, hu]

theorem isolateAndRun_start_err (env : Env) (tempDir command msg : Str)
    (hc : env.chrootErr = none) (hu : env.unshareErr = false)
    (hch : env.child = ChildRun.startErr msg) :
    isolateAndRun env tempDir command =
      ([Event.chrootCall tempDir, Event.unshareCall, Event.runChild command,
        Event.printErr ("Err: ".toList ++ msg)],
       Outcome.exited 1) := by
  simp [isolateAndRun, isolateFileSystem, isolateProcess, hc, hu, hch]

theorem isolateAndRun_exit_zero (env : Env) (tempDir command : Str)
    (hc : env.chrootErr = none) (hu : env.unshareErr = false)
    (hch : env.child = ChildRun.exited 0) :
    isolateAndRun env tempDir command =
      ([Event.chrootCall tempDir, Event.unshareCall, Event.runChild command,
        Event.removeAllCall tempDir],
       Outcome.exited 0) := by
  simp [isolateAndRun, isolateFileSystem, isolateProcess, hc, hu, hch]

theorem isolateAndRun_exit_nonzero (env : Env) (tempDir command : Str) (code : Nat)
    (hc : env.chrootErr = none) (hu : env.unshareErr = false)
    (hch : env.child = ChildRun.exited code) (h0 : code ≠ 0) :
    isolateAndRun env tempDir command =
      ([Event.chrootCall tempDir, Event.unshareCall, Event.runChild command],
       Outcome.exited code) := by
  simp [isolateAndRun, isolateFileSystem, isolateProcess, hc, hu, hch, h0]

/-- C3: in every run that reaches the user command, the root change (chroot)
and the namespace unshare each happen exactly once, the chroot strictly
before the unshare, and both before the command is run. -/
theorem claimC3_isolation_before_exec (env : Env) (imageName command : Str)
    (hRun : Event.runChild command ∈ (main env imageName command).1) :
    ∃ (tempDir : Str) (pre post : List Event),
      (main env imageName command).1
        = pre ++ [Event.chrootCall tempDir, Event.unshareCall,
                  Event.runChild command] ++ post
      ∧ (main env imageName command).1.countP isChrootEvent = 1
      ∧ (main env imageName command).1.countP isUnshareEvent = 1
      ∧ (main env imageName command).1.countP isRunChildEvent = 1 := by
  rcases hm : env.mkdirTemp with e | tempDir
  · rw [main_mkdir_err_trace env imageName command e hm] at hRun
    simp at hRun
  rcases hg : getTokenResult env.tokenHTTP with e | tokv
  · rw [main_token_err_trace env imageName command tempDir hm e hg] at hRun
    simp at hRun
  rcases hman : getManifestResult env.manifestHTTP with e | man
  · rw [main_manifest_err_trace env imageName command tempDir hm tokv hg e hman]
      at hRun
    simp at hRun
  rcases hp : pullLoop env man.layers with ⟨pEvs, pRes⟩
  have hShapeP : ∀ x ∈ pEvs, pullishEvent x = true := by
    intro x hx
    exact pullLoop_events_shape env man.layers x (by rw [hp]; exact hx)
  cases pRes with
  | inl o =>
    have ho := pullLoop_inl_outcome env man.layers o (by rw [hp])
    rcases ho with rfl | rfl
    · rw [main_pull_panic_trace env imageName command tempDir hm tokv hg man hman
            pEvs hp] at hRun
      simp at hRun
      simpa [pullishEvent] using hShapeP _ hRun
    · rw [main_pull_exit_trace env imageName command tempDir hm tokv hg man hman
            pEvs 1 hp] at hRun
      simp at hRun
      simpa [pullishEvent] using hShapeP _ hRun
  | inr names =>
    rcases hx : extractLoop env tempDir names with ⟨xEvs, xRes⟩
    have hShapeX : ∀ y ∈ xEvs, extractishEvent y = true := by
      intro y hy
      exact extractLoop_events_shape env tempDir names y (by rw [hx]; exact hy)
    have hPc : pEvs.countP isChrootEvent = 0 :=
      countP_zero_of_shape hShapeP
        (by intro e he; cases e <;> simp_all [pullishEvent, isChrootEvent])
    have hPu : pEvs.countP isUnshareEvent = 0 :=
      countP_zero_of_shape hShapeP
        (by intro e he; cases e <;> simp_all [pullishEvent, isUnshareEvent])
    have hPr : pEvs.countP isRunChildEvent = 0 :=
      countP_zero_of_shape hShapeP
        (by intro e he; cases e <;> simp_all [pullishEvent, isRunChildEvent])
    have hXc : xEvs.countP isChrootEvent = 0 :=
      countP_zero_of_shape hShapeX
        (by intro e he; cases e <;> simp_all [extractishEvent, isChrootEvent])
    have hXu : xEvs.countP isUnshareEvent = 0 :=
      countP_zero_of_shape hShapeX
        (by intro e he; cases e <;> simp_all [extractishEvent, isUnshareEvent])
    have hXr : xEvs.countP isRunChildEvent = 0 :=
      countP_zero_of_shape hShapeX
        (by intro e he; cases e <;> simp_all [extractishEvent, isRunChildEvent])
    cases xRes with
    | some code =>
      rw [main_extract_stop_trace env imageName command tempDir hm tokv hg man hman
            pEvs names hp xEvs code hx] at hRun
      simp at hRun
      rcases hRun with h | h
      · simpa [pullishEvent] using hShapeP _ h
      · simpa [extractishEvent] using hShapeX _ h
    | none =>
      rcases hc : env.chrootErr with _ | er
      · cases hu : env.unshareErr with
        | false =>
          rcases hch : env.child with msg | code
          · have hIso := isolateAndRun_start_err env tempDir command msg hc hu hch
            have hMain := main_stages_trace env imageName command tempDir hm tokv
              hg man hman pEvs names hp xEvs hx _ _ hIso
            refine ⟨tempDir, Event.tokenReq :: Event.manifestReq :: (pEvs ++ xEvs),
              [Event.printErr ("Err: ".toList ++ msg)], ?_, ?_, ?_, ?_⟩
            · rw [hMain]
              simp
            · rw [hMain]
              simp [List.countP_cons, List.countP_append, hPc, hXc,
                    isChrootEvent]
            · rw [hMain]
              simp [List.countP_cons, List.countP_append, hPu, hXu,
                    isUnshareEvent]
            · rw [hMain]
              simp [List.countP_cons, List.countP_append, hPr, hXr,
                    isRunChildEvent]
          · by_cases h0 : code = 0
            · subst h0
              have hIso := isolateAndRun_exit_zero env tempDir command hc hu hch
              have hMain := main_stages_trace env imageName command tempDir hm tokv
                hg man hman pEvs names hp xEvs hx _ _ hIso
              refine ⟨tempDir, Event.tokenReq :: Event.manifestReq :: (pEvs ++ xEvs),
                [Event.removeAllCall tempDir], ?_, ?_, ?_, ?_⟩
              · rw [hMain]
                simp
              · rw [hMain]
                simp [List.countP_cons, List.countP_append, hPc, hXc,
                      isChrootEvent]
              · rw [hMain]
                simp [List.countP_cons, List.countP_append, hPu, hXu,
                      isUnshareEvent]
              · rw [hMain]
                simp [List.countP_cons, List.countP_append, hPr, hXr,
                      isRunChildEvent]
            · have hIso := isolateAndRun_exit_nonzero env tempDir command code hc
                hu hch h0
              have hMain := main_stages_trace env imageName command tempDir hm tokv
                hg man hman pEvs names hp xEvs hx _ _ hIso
              refine ⟨tempDir, Event.tokenReq :: Event.manifestReq :: (pEvs ++ xEvs),
                [], ?_, ?_, ?_, ?_⟩
              · rw [hMain]
                simp
              · rw [hMain]
                simp [List.countP_cons, List.countP_append, hPc, hXc,
                      isChrootEvent]
              · rw [hMain]
                simp [List.countP_cons, List.countP_append, hPu, hXu,
                      isUnshareEvent]
              · rw [hMain]
                simp [List.countP_cons, List.countP_append, hPr, hXr,
                      isRunChildEvent]
        | true =>
          have hIso := isolateAndRun_unshare_err env tempDir command hc hu
          rw [main_stages_trace env imageName command tempDir hm tokv hg man hman
                pEvs names hp xEvs hx _ _ hIso] at hRun
          simp at hRun
          rcases hRun with h | h
          · simpa [pullishEvent] using hShapeP _ h
          · simpa [extractishEvent] using hShapeX _ h
      · have hIso := isolateAndRun_chroot_err env tempDir command er hc
        rw [main_stages_trace env imageName command tempDir hm tokv hg man hman
              pEvs names hp xEvs hx _ _ hIso] at hRun
        simp at hRun
        rcases hRun with h | h
        · simpa [pullishEvent] using hShapeP _ h
        · simpa [extractishEvent] using hShapeX _ h

theorem claimC3_isolation_before_exec_witness :
    ∃ (tempDir : Str) (pre post : List Event),
      (main envHappy "img".toList "cmd".toList).1
        = pre ++ [Event.chrootCall tempDir, Event.unshareCall,
                  Event.runChild "cmd".toList] ++ post
      ∧ (main envHappy "img".toList "cmd".toList).1.countP isChrootEvent = 1
      ∧ (main envHappy "img".toList "cmd".toList).1.countP isUnshareEvent = 1
      ∧ (main envHappy "img".toList "cmd".toList).1.countP isRunChildEvent = 1 :=
  claimC3_isolation_before_exec envHappy "img".toList "cmd".toList (by decide)

/-- C9 (amended): the deferred `os.RemoveAll(tempDir)` runs exactly when Go
executes deferred functions — when `main` returns normally (the whole
pipeline succeeded and the child exited with code 0) and when the run dies by
runtime panic after creating the scratch directory (panic unwinding runs
defers); every `os.Exit` path (any setup failure, a failed child start, a
nonzero child exit) skips the deferred removal, because `os.Exit` does not
run deferred functions. -/
theorem claimC9_amended_remove_only_on_clean_exit (env : Env)
    (imageName command d : Str) :
    Event.removeAllCall d ∈ (main env imageName command).1
      ↔ (env.mkdirTemp = Except.ok d
         ∧ ((main env imageName command).2 = Outcome.exited 0
            ∨ (main env imageName command).2 = Outcome.panicked)) := by
  rcases hm : env.mkdirTemp with e | tempDir
  · rw [main_mkdir_err_trace env imageName command e hm]
    simp
  rcases hg : getTokenResult env.tokenHTTP with e | tokv
  · rw [main_token_err_trace env imageName command tempDir hm e hg]
    simp
  rcases hman : getManifestResult env.manifestHTTP with e | man
  · rw [main_manifest_err_trace env imageName command tempDir hm tokv hg e hman]
    simp
  rcases hp : pullLoop env man.layers with ⟨pEvs, pRes⟩
  have hShapeP : ∀ x ∈ pEvs, pullishEvent x = true := by
    intro x hx
    exact pullLoop_events_shape env man.layers x (by rw [hp]; exact hx)
  have hNoRemP : Event.removeAllCall d ∉ pEvs := not_mem_of_shape hShapeP rfl
  cases pRes with
  | inl o =>
    have ho := pullLoop_inl_outcome env man.layers o (by rw [hp])
    rcases ho with rfl | rfl
    · rw [main_pull_panic_trace env imageName command tempDir hm tokv hg man hman
            pEvs hp]
      simp [hNoRemP, hm, eq_comm]
    · rw [main_pull_exit_trace env imageName command tempDir hm tokv hg man hman
            pEvs 1 hp]
      simp [hNoRemP]
  | inr names =>
    rcases hx : extractLoop env tempDir names with ⟨xEvs, xRes⟩
    have hShapeX : ∀ y ∈ xEvs, extractishEvent y = true := by
      intro y hy
      exact extractLoop_events_shape env tempDir names y (by rw [hx]; exact hy)
    have hNoRemX : Event.removeAllCall d ∉ xEvs := not_mem_of_shape hShapeX rfl
    cases xRes with
    | some code =>
      have hcode := extractLoop_some_code env tempDir names code (by rw [hx])
      subst hcode
      rw [main_extract_stop_trace env imageName command tempDir hm tokv hg man
            hman pEvs names hp xEvs 1 hx]
      simp [hNoRemP, hNoRemX]
    | none =>
      rcases hc : env.chrootErr with _ | er
      · cases hu : env.unshareErr with
        | false =>
          rcases hch : env.child with msg | code
          · have hIso := isolateAndRun_start_err env tempDir command msg hc hu hch
            rw [main_stages_trace env imageName command tempDir hm tokv hg man
                  hman pEvs names hp xEvs hx _ _ hIso]
            simp [hNoRemP, hNoRemX]
          · by_cases h0 : code = 0
            · subst h0
              have hIso := isolateAndRun_exit_zero env tempDir command hc hu hch
              rw [main_stages_trace env imageName command tempDir hm tokv hg man
                    hman pEvs names hp xEvs hx _ _ hIso]
              simp [hNoRemP, hNoRemX, hm, eq_comm]
            · have hIso := isolateAndRun_exit_nonzero env tempDir command code hc
                hu hch h0
              rw [main_stages_trace env imageName command tempDir hm tokv hg man
                    hman pEvs names hp xEvs hx _ _ hIso]
              simp [hNoRemP, hNoRemX, h0]
        | true =>
          have hIso := isolateAndRun_unshare_err env tempDir command hc hu
          rw [main_stages_trace env imageName command tempDir hm tokv hg man hman
                pEvs names hp xEvs hx _ _ hIso]
          simp [hNoRemP, hNoRemX]
      · have hIso := isolateAndRun_chroot_err env tempDir command er hc
        rw [main_stages_trace env imageName command tempDir hm tokv hg man hman
              pEvs names hp xEvs hx _ _ hIso]
        simp [hNoRemP, hNoRemX]

/-- C9 counterexample: a run that created the scratch directory and then
failed at the token step exits the process without the directory ever being
removed — the deferred removal never runs on an `os.Exit` path, contradicting
removal "on every exit path". -/
theorem claimC9_counterexample :
    (main env404 "img".toList "cmd".toList).2 = Outcome.exited 1
    ∧ Event.removeAllCall "/tmp/dir".toList
        ∉ (main env404 "img".toList "cmd".toList).1 := by
  decide

def layerMd5 : LayerDesc := ⟨"mt".toList, 5, "md5:aabbcc".toList⟩

def manMd5 : ManifestResponse := ⟨2, "mt".toList, "sha256:cfg".toList, [layerMd5]⟩

def envMd5 : Env :=
  { envHappy with manifestHTTP := Except.ok (200, some manMd5) }

/-- C7 counterexample: for the digest `md5:aabbcc`, which has the spec's form
`algorithm:hexdigest`, the run creates the blob file at path `bcc.tar.gz` —
not the algorithm-stripped name `aabbcc.tar.gz` the claim requires for every
algorithm — and that path does not lie inside the run's scratch directory
`/tmp/dir`, so nothing removes it at exit. -/
theorem claimC7_counterexample :
    Event.createFile "bcc.tar.gz".toList
        ∈ (main envMd5 "img".toList "cmd".toList).1
    ∧ "bcc.tar.gz".toList ≠ specLayerFileName "md5:aabbcc".toList
    ∧ "bcc.tar.gz".toList.take "/tmp/dir".toList.length ≠ "/tmp/dir".toList := by
  decide

theorem dropWhile_until_colon : ∀ {alg : Str}, ':' ∉ alg → ∀ (hex : Str),
    (alg ++ ':' :: hex).dropWhile (fun a => a ≠ ':') = ':' :: hex
  | [], _, hex => by simp [List.dropWhile]
  | x :: xs, h, hex => by
    have hx : ¬ x = ':' := fun he => h (he ▸ List.mem_cons_self x xs)
    have hxs : ':' ∉ xs := fun hm => h (List.mem_cons_of_mem x hm)
    simp only [List.cons_append, List.dropWhile_cons]
    simp [hx]
    simpa using dropWhile_until_colon hxs hex

/-- C7 (amended): each layer blob is saved to a local file named by the
digest with its first seven characters removed, plus ".tar.gz"; that equals
the algorithm-stripped digest exactly for six-character algorithm names such
as sha256, and the path is relative to the process's working directory, not
inside the scratch directory, so the file is not implicitly deleted at
process exit. -/
theorem claimC7_amended_layer_file_naming (digest alg hex : Str)
    (h7 : 7 ≤ digest.length) (hAlg : alg.length = 6) (hc : ':' ∉ alg) :
    layerFileName digest = some (digest.drop 7 ++ tarGzExt)
    ∧ layerFileName (alg ++ ':' :: hex) = some (hex ++ tarGzExt)
    ∧ specLayerFileName (alg ++ ':' :: hex) = hex ++ tarGzExt := by
  refine ⟨layerFileName_eq_some h7, ?_, ?_⟩
  · have hlen : 7 ≤ (alg ++ ':' :: hex).length := by
      have hl : (alg ++ ':' :: hex).length = alg.length + (hex.length + 1) := by
        simp
      omega
    rw [layerFileName_eq_some hlen]
    have hsplit : alg ++ ':' :: hex = (alg ++ [':']) ++ hex := by simp
    have h7' : (alg ++ [':']).length = 7 := by simp [hAlg]
    rw [hsplit, ← h7', List.drop_left]
  · unfold specLayerFileName specStripAlg
    rw [dropWhile_until_colon hc hex]

theorem claimC7_amended_layer_file_naming_witness :
    layerFileName "sha256:ab".toList
        = some ("sha256:ab".toList.drop 7 ++ tarGzExt)
    ∧ layerFileName ("sha256".toList ++ ':' :: "ab".toList)
        = some ("ab".toList ++ tarGzExt)
    ∧ specLayerFileName ("sha256".toList ++ ':' :: "ab".toList)
        = "ab".toList ++ tarGzExt :=
  claimC7_amended_layer_file_naming "sha256:ab".toList "sha256".toList
    "ab".toList (by decide) (by decide) (by decide)

def exceptIsError {α β : Type} : Except α β → Bool
  | Except.error _ => true
  | Except.ok _ => false

/-- C8 counterexample: 201 is a success (2xx) status and the body is
well-formed, yet `getToken` returns an error, because the code accepts only
exactly status 200. -/
theorem claimC8_counterexample :
    (200 ≤ 201 ∧ 201 < 300)
    ∧ exceptIsError (getTokenResult (Except.ok (201, some tokExample))) = true := by
  decide

/-- C8 (amended): on a response from the token endpoint, `getToken` returns
an error exactly when the status differs from 200 or the body is
undecodable; on a 200 response with a well-formed body it returns the body's
`token` field.  (2xx statuses other than 200 count as errors, unlike the
claim's "non-success" reading.) -/
theorem claimC8_amended_getToken_result :
    (∀ (s : Nat) (b : Option TokenResponse),
       exceptIsError (getTokenResult (Except.ok (s, b)))
         = (!(s == 200) || b.isNone))
    ∧ (∀ t : TokenResponse,
       getTokenResult (Except.ok (200, some t)) = Except.ok t.token) := by
  constructor
  · intro s b
    by_cases hs : s = 200
    · subst hs
      cases b <;> simp [getTokenResult, exceptIsError]
    · cases b <;> simp [getTokenResult, hs, exceptIsError]
  · intro t
    simp [getTokenResult]

/-- C5: an image reference without a colon parses to itself with tag
"latest"; a reference `name:tag` (name and tag colon-free) parses to exactly
`(name, tag)`. -/
theorem claimC5_parseImage (image name tag : Str)
    (h1 : ':' ∉ image) (h2 : ':' ∉ name) (h3 : ':' ∉ tag) :
    parseImage image = (image, latestTag) ∧
    parseImage (name ++ ':' :: tag) = (name, tag) := by
  refine ⟨?_, ?_⟩
  · simp [parseImage, splitOnChar_not_mem h1]
  · simp [parseImage, splitOnChar_append tag h2, splitOnChar_not_mem h3]

theorem claimC5_parseImage_witness :
    parseImage "ubuntu".toList = ("ubuntu".toList, latestTag) ∧
    parseImage ("alpine".toList ++ ':' :: "edge".toList)
      = ("alpine".toList, "edge".toList) :=
  claimC5_parseImage "ubuntu".toList "alpine".toList "edge".toList
    (by decide) (by decide) (by decide)

end DockerGo
